import Mathlib

/-!
Verification of the `codegen` type generator (`src/codegen/src/type_gen.rs`)
of the rust-postgres repository.

The Rust program reads two pinned PostgreSQL catalog snapshots
(`pg_type.h`, `pg_range.h`), parses them into a `BTreeMap<u32, Type>`,
and emits Rust source text (`types/type_gen.rs`).  This file is a shallow
embedding of that pipeline:

* Rust `str::split_whitespace` / `str::lines` / `u32::from_str` become
  structurally recursive functions over `List Char`, so that every
  definition can be evaluated by the kernel on concrete inputs.
* `BTreeMap<u32, V>` becomes a sorted association list `List (Nat × V)`
  with `btreeInsert` / `btreeGet`; iteration order of the map is the
  list order (sorted by key), matching the BTreeMap iteration order the
  Rust code relies on for deterministic emission.
* Panics (`unwrap`, out-of-bounds indexing, `BTreeMap` indexing with a
  missing key) become `Option`/`Except` failures.
* The file written by `build` is modelled explicitly: `File::create`
  truncates the destination before anything is parsed, and the
  `BufWriter` flushes whatever has been buffered when it is dropped
  during a panic unwind, so the model returns the destination file's
  content for failing runs as well.
-/

set_option maxRecDepth 10000

/-- Newline character (used instead of an escape for clarity). -/
def nlChar : Char := Char.ofNat 10

/-- Carriage-return character. -/
def crChar : Char := Char.ofNat 13

/-- Split a character list at every separator character.
Mirrors the splitting underlying Rust string splitting: separators are
consumed, empty chunks are kept. -/
def splitOnPred (p : Char → Bool) : List Char → List (List Char)
  | [] => [[]]
  | c :: rest =>
    match splitOnPred p rest with
    | [] => if p c then [[], []] else [[c]]
    | h :: t => if p c then [] :: h :: t else (c :: h) :: t

/-- Rust `str::split_whitespace`: split on whitespace and drop the empty
chunks.  (The catalog snapshots are ASCII, so ASCII whitespace suffices.) -/
def splitWs (s : List Char) : List (List Char) :=
  (splitOnPred (fun c => c.isWhitespace) s).filter (fun l => !l.isEmpty)

/-- The whitespace-delimited fields of one snapshot line, as collected by
`line.split_whitespace().collect::<Vec<_>>()` in the Rust source. -/
def fields (line : String) : List (List Char) :=
  splitWs line.toList

/-- Rust `str::lines`: split on newline, dropping a final empty chunk and
stripping a trailing carriage return from each line. -/
def rustLines (s : String) : List String :=
  let parts := splitOnPred (fun c => c = nlChar) s.toList
  let parts := match parts.getLast? with
    | some [] => parts.dropLast
    | _ => parts
  parts.map (fun l => String.mk (if l.getLast? = some crChar then l.dropLast else l))

/-- `line.starts_with("DATA")`, the row marker test of both parsers. -/
def startsWithData (line : String) : Bool :=
  "DATA".toList.isPrefixOf line.toList

/-- Value of one decimal digit. -/
def digitVal (c : Char) : Option Nat :=
  if '0' ≤ c ∧ c ≤ '9' then some (c.toNat - 48) else none

/-- Accumulate decimal digits; fails at the first non-digit. -/
def foldDigits : List Char → Nat → Option Nat
  | [], acc => some acc
  | c :: rest, acc =>
    match digitVal c with
    | some d => foldDigits rest (10 * acc + d)
    | none => none

/-- Rust `str::parse::<u32>()`: an optional leading plus sign, at least one
digit, all characters digits, and the value within `u32` range.  Overflow
is detected by the final range check, which accepts exactly the same
inputs as Rust's in-loop overflow check. -/
def parseU32 (s : List Char) : Option Nat :=
  let t := match s with
    | '+' :: rest => rest
    | other => other
  match t with
  | [] => none
  | _ =>
    match foldDigits t 0 with
    | some n => if n < 4294967296 then some n else none
    | none => none

/-- `BTreeMap` as a sorted association list: insertion keeps keys strictly
increasing and replaces the value at an existing key (the semantics of
`BTreeMap::insert`). -/
def btreeInsert {α : Type} (k : Nat) (v : α) : List (Nat × α) → List (Nat × α)
  | [] => [(k, v)]
  | (k', v') :: rest =>
    if k < k' then (k, v) :: (k', v') :: rest
    else if k = k' then (k, v) :: rest
    else (k', v') :: btreeInsert k v rest

/-- `BTreeMap::get`. -/
def btreeGet {α : Type} (k : Nat) : List (Nat × α) → Option α
  | [] => none
  | (k', v') :: rest => if k = k' then some v' else btreeGet k rest

/-- `Except.ok` test, used to state "the run did not abort". -/
def isOk {ε α : Type} : Except ε α → Bool
  | .ok _ => true
  | .error _ => false

instance {ε α : Type} [DecidableEq ε] [DecidableEq α] : DecidableEq (Except ε α) := fun
  | .ok a, .ok b =>
    match decEq a b with
    | isTrue h => isTrue (by rw [h])
    | isFalse h => isFalse (by intro he; cases he; exact h rfl)
  | .ok _, .error _ => isFalse (by intro h; cases h)
  | .error _, .ok _ => isFalse (by intro h; cases h)
  | .error e, .error f =>
    match decEq e f with
    | isTrue h => isTrue (by rw [h])
    | isFalse h => isFalse (by intro he; cases he; exact h rfl)

/-! ## Range Table Parser (`parse_ranges`) -/

/-- Field extraction of one `DATA` row of `pg_range.h`:
`split[2].parse().unwrap()` is the range type's own oid and
`split[3].parse().unwrap()` its element (subtype) oid; `none` models the
panic on a missing or malformed field. -/
def parseRangeRow (line : String) : Option (Nat × Nat) :=
  match (fields line).get? 2 with
  | none => none
  | some oidS =>
    match parseU32 oidS with
    | none => none
    | some oid =>
      match (fields line).get? 3 with
      | none => none
      | some eS =>
        match parseU32 eS with
        | none => none
        | some e => some (oid, e)

/-- The loop of `parse_ranges`: lines not starting with `DATA` are skipped,
data rows insert `(oid, element)` into the `BTreeMap`; a malformed row
aborts the run. -/
def parseRangesGo : List String → List (Nat × Nat) → Except String (List (Nat × Nat))
  | [], acc => .ok acc
  | line :: rest, acc =>
    if startsWithData line then
      match parseRangeRow line with
      | some oe => parseRangesGo rest (btreeInsert oe.1 oe.2 acc)
      | none => .error "panicked while parsing a pg_range.h row"
    else parseRangesGo rest acc

/-- `parse_ranges`, over the full text of `pg_range.h`. -/
def parseRanges (pgRange : String) : Except String (List (Nat × Nat)) :=
  parseRangesGo (rustLines pgRange) []

/-! ## Variant Name Deriver -/

/-- `to_ascii_uppercase` on one character. -/
def toAsciiUppercase (c : Char) : Char :=
  if 'a' ≤ c ∧ c ≤ 'z' then Char.ofNat (c.toNat - 32) else c

/-- `Regex::replace` with the pattern `(range|vector)$` and replacement
`_$1`: if the name ends in `range` or `vector`, insert an underscore
before that suffix; otherwise leave it unchanged. -/
def replaceRangeVector (s : List Char) : List Char :=
  let r := s.reverse
  if "egnar".toList.isPrefixOf r then (r.drop 5).reverse ++ ('_' :: "range".toList)
  else if "rotcev".toList.isPrefixOf r then (r.drop 6).reverse ++ ('_' :: "vector".toList)
  else s

/-- `Regex::replace` with the pattern `^_(.*)` and replacement `$1_array`:
strip a leading underscore and append `_array`. -/
def replaceArraySuffix : List Char → List Char
  | '_' :: rest => rest ++ "_array".toList
  | s => s

/-- Capitalize the first character of a snake-case segment. -/
def capitalizeSeg : List Char → List Char
  | [] => []
  | c :: rest => toAsciiUppercase c :: rest

/-- Modelled from the spec: the `snake_to_camel` helper imported by
`type_gen.rs` (`use snake_to_camel;`) lives elsewhere in the codegen crate
and is not under `src/`; per spec section 4.3 step 4 it converts a
snake-case string to a capitalized-word identifier, each
underscore-delimited segment capitalized and the underscores removed. -/
def snakeToCamel (s : List Char) : List Char :=
  ((splitOnPred (fun c => c = '_') s).map capitalizeSeg).flatten

/-- The Variant Name Deriver (lines 72–79 of `type_gen.rs`): the literal
special case for `anyarray`, then the `(range|vector)$` rule, then the
`^_(.*)` array rule, then snake-to-camel conversion. -/
def deriveVariant (name : String) : String :=
  if name = "anyarray" then "AnyArray"
  else String.mk (snakeToCamel (replaceArraySuffix (replaceRangeVector name.toList)))

/-! ## Type Catalog Parser (`parse_types`) -/

/-- One match attempt of the regex `DESCR\("([^"]+)"\)` at the head of the
character list: the literal `DESCR("`, a nonempty run of non-quote
characters, then `")`. -/
def matchDescrAt (s : List Char) : Option (List Char) :=
  if "DESCR(\"".toList.isPrefixOf s then
    let rest := s.drop 7
    let cap := rest.takeWhile (fun c => c ≠ '"')
    if cap.isEmpty then none
    else if "\")".toList.isPrefixOf (rest.drop cap.length) then some cap
    else none
  else none

/-- Leftmost match of `DESCR\("([^"]+)"\)` (capture group 1), the
description annotation searched for on the line after a data row. -/
def findDescr : List Char → Option (List Char)
  | [] => none
  | c :: rest =>
    match matchDescrAt (c :: rest) with
    | some cap => some cap
    | none => findDescr rest

/-- The `doc` computation of `parse_types` (lines 94–105): turn a leading
underscore into a `[]` suffix (`^_(.*)` replaced by `$1[]`), uppercase,
append ` - description` when the next line carries a `DESCR` annotation,
then escape the result. -/
def replaceArrayBrackets : List Char → List Char
  | '_' :: rest => rest ++ "[]".toList
  | s => s

/-- Modelled from the spec: the external escaping capability
(`marksman_escape::Escape`), which this generator calls but does not
implement; per spec sections 3 and 4.2 it escapes characters that would
corrupt a generated comment — angle brackets, ampersands and quotes —
using the usual HTML entities. -/
def escapeChar (c : Char) : List Char :=
  if c = '&' then "&amp;".toList
  else if c = '<' then "&lt;".toList
  else if c = '>' then "&gt;".toList
  else if c = '"' then "&quot;".toList
  else if c = Char.ofNat 39 then "&#x27;".toList
  else [c]

/-- Modelled from the spec: escape a whole string for embedding in a
generated comment (see `escapeChar`). -/
def escapeDoc (s : List Char) : List Char :=
  (s.map escapeChar).flatten

/-- The documentation string attached to one catalog row. -/
def mkDoc (nameL : List Char) (next : Option String) : String :=
  let d := (replaceArrayBrackets nameL).map toAsciiUppercase
  let d := match next.bind (fun l => findDescr l.toList) with
    | some descr => d ++ " - ".toList ++ descr
    | none => d
  String.mk (escapeDoc d)

/-- The in-memory record built for one retained catalog row
(the `Type` struct of `type_gen.rs`). -/
structure TypeRec where
  name : String
  variant : String
  kind : String
  element : Nat
  doc : String
deriving DecidableEq

/-- Lines 88–92 of `parse_types`: the element oid of a retained row.  If
the row's oid is a key of the range map, the map's value is used and the
row's own static element field (position 16) is never read; otherwise the
static field is parsed (`split[16].parse().unwrap()`, `none` modelling
the panic). -/
def resolveElement (ranges : List (Nat × Nat)) (oid : Nat) (line : String) : Option Nat :=
  match btreeGet oid ranges with
  | some e => some e
  | none =>
    match (fields line).get? 16 with
    | none => none
    | some f => parseU32 f

/-- Processing of one line of `pg_type.h` (the body of the `parse_types`
loop).  The outer `Option` models a panic (missing field / malformed
number), the inner `Option` distinguishes a skipped line (no row marker,
or a composite/enum row) from a produced `(oid, TypeRec)` pair.
Field offsets are those of the source: oid at 3, name at 5, kind at 11,
static element oid at 16. -/
def parseTypeRow (ranges : List (Nat × Nat)) (line : String) (next : Option String) :
    Option (Option (Nat × TypeRec)) :=
  if startsWithData line then
    match (fields line).get? 3 with
    | none => none
    | some oidS =>
      match parseU32 oidS with
      | none => none
      | some oid =>
        match (fields line).get? 5 with
        | none => none
        | some nameL =>
          match (fields line).get? 11 with
          | none => none
          | some kindL =>
            if String.mk kindL = "C" ∨ String.mk kindL = "E" then some none
            else
              match resolveElement ranges oid line with
              | none => none
              | some element =>
                some (some (oid,
                  { name := String.mk nameL, variant := deriveVariant (String.mk nameL),
                    kind := String.mk kindL, element := element, doc := mkDoc nameL next }))
  else some none

/-- The loop of `parse_types`: each produced row is inserted into the
`BTreeMap` keyed by oid; the peeked next line is available for the
`DESCR` annotation. -/
def parseTypesGo (ranges : List (Nat × Nat)) :
    List String → List (Nat × TypeRec) → Except String (List (Nat × TypeRec))
  | [], acc => .ok acc
  | line :: rest, acc =>
    match parseTypeRow ranges line rest.head? with
    | none => .error "panicked while parsing a pg_type.h row"
    | some none => parseTypesGo ranges rest acc
    | some (some (oid, t)) => parseTypesGo ranges rest (btreeInsert oid t acc)

/-- `parse_types`, over the full text of `pg_type.h`. -/
def parseTypes (ranges : List (Nat × Nat)) (pgType : String) :
    Except String (List (Nat × TypeRec)) :=
  parseTypesGo ranges (rustLines pgType) []

/-! ## Code Emitter

The emitters reproduce the `write!` format strings of `make_header`,
`make_enum`, `make_display_impl` and `make_impl` literally (every `{{` of
a Rust format string is one literal brace of the output, written `\x7b` /
`\x7d` below).  `make_impl` can panic — `types[&type_.element]` aborts
when an array/range element oid has no entry — so its model returns, on
failure, the text that had already been written to the `BufWriter` before
the panic: that text reaches the destination file because `BufWriter`'s
`Drop` implementation flushes the buffer while the panic unwinds. -/

def makeHeader : String :=
  "// Autogenerated file - DO NOT EDIT\nuse std::fmt;\n\nuse types::\x7bOid, Kind, Other\x7d;\n\n"

/-- One case of the generated enum (`make_enum`'s loop body). -/
def enumArm (t : TypeRec) : String :=
  "    /// " ++ t.doc ++ "\n    " ++ t.variant ++ ",\n"

/-- `make_enum`: the generated `pub enum Type` block, one case per catalog
entry in oid order plus the fixed `Other(Other)` case. -/
def makeEnum (ts : List (Nat × TypeRec)) : String :=
  "/// A Postgres type.\n#[derive(PartialEq, Eq, Clone, Debug)]\npub enum Type \x7b\n"
  ++ String.join (ts.map (fun p => enumArm p.2))
  ++ "    /// An unknown type.\n    Other(Other),\n\x7d\n\n"

/-- `make_display_impl`: a fixed, catalog-independent block. -/
def makeDisplayImpl : String :=
  "impl fmt::Display for Type \x7b\n    fn fmt(&self, fmt: &mut fmt::Formatter) -> fmt::Result \x7b\n        match self.schema() \x7b\n            \"public\" | \"pg_catalog\" => \x7b\x7d\n            schema => write!(fmt, \"\x7b\x7d.\", schema)?,\n        \x7d\n        fmt.write_str(self.name())\n    \x7d\n\x7d\n\n"

/-- One arm of the generated `from_oid` match. -/
def fromOidArm (p : Nat × TypeRec) : String :=
  "            " ++ Nat.repr p.1 ++ " => Some(Type::" ++ p.2.variant ++ "),\n"

/-- One arm of the generated `oid` match. -/
def oidArm (p : Nat × TypeRec) : String :=
  "            Type::" ++ p.2.variant ++ " => " ++ Nat.repr p.1 ++ ",\n"

/-- One arm of the generated `name` match. -/
def nameArm (p : Nat × TypeRec) : String :=
  "            Type::" ++ p.2.variant ++ " => \"" ++ p.2.name ++ "\",\n"

/-- The `Kind` expression emitted for one record (`make_impl` lines
220–225): `P` is `Pseudo`, `A`/`R` resolve the element's record with
`types[&type_.element]` — whose failure (`none`) is the BTreeMap index
panic on a dangling element oid — and everything else is `Simple`. -/
def kindConst (ts : List (Nat × TypeRec)) (t : TypeRec) : Option String :=
  if t.kind = "P" then some "Pseudo"
  else if t.kind = "A" then
    (btreeGet t.element ts).map (fun e => "Array(Type::" ++ e.variant ++ ")")
  else if t.kind = "R" then
    (btreeGet t.element ts).map (fun e => "Range(Type::" ++ e.variant ++ ")")
  else some "Simple"

/-- One arm of the generated `kind` match. -/
def kindArm (t : TypeRec) (k : String) : String :=
  "            Type::" ++ t.variant ++ " => \x7b\n                const V: &\x27static Kind = &Kind::" ++ k ++ ";\n                V\n            \x7d\n"

def implHead : String :=
  "impl Type \x7b\n    /// Returns the `Type` corresponding to the provided `Oid` if it\n    /// corresponds to a built-in type.\n    pub fn from_oid(oid: Oid) -> Option<Type> \x7b\n        match oid \x7b\n"

def implMid1 : String :=
  "            _ => None,\n        \x7d\n    \x7d\n\n    /// Returns the OID of the `Type`.\n    pub fn oid(&self) -> Oid \x7b\n        match *self \x7b\n"

def implMid2 : String :=
  "            Type::Other(ref u) => u.oid(),\n        \x7d\n    \x7d\n\n    /// Returns the kind of this type.\n    pub fn kind(&self) -> &Kind \x7b\n        match *self \x7b\n"

def implMid3 : String :=
  "            Type::Other(ref u) => u.kind(),\n        \x7d\n    \x7d\n\n    /// Returns the schema of this type.\n    pub fn schema(&self) -> &str \x7b\n        match *self \x7b\n            Type::Other(ref u) => u.schema(),\n            _ => \"pg_catalog\",\n        \x7d\n    \x7d\n\n    /// Returns the name of this type.\n    pub fn name(&self) -> &str \x7b\n        match *self \x7b\n"

def implTail : String :=
  "            Type::Other(ref u) => u.name(),\n        \x7d\n    \x7d\n\x7d\n"

/-- The kind-arm loop of `make_impl`: on a dangling element oid the run
panics, and the error carries the arms already written to the buffer. -/
def kindBlockGo (ts : List (Nat × TypeRec)) :
    List (Nat × TypeRec) → String → Except String String
  | [], acc => .ok acc
  | p :: rest, acc =>
    match kindConst ts p.2 with
    | some k => kindBlockGo ts rest (acc ++ kindArm p.2 k)
    | none => .error acc

/-- `make_impl`: the `from_oid`, `oid`, `kind`, `schema` and `name`
blocks.  On the dangling-element panic the error carries everything
`make_impl` had written before the panic. -/
def makeImpl (ts : List (Nat × TypeRec)) : Except String String :=
  let pre := implHead ++ String.join (ts.map fromOidArm) ++ implMid1
    ++ String.join (ts.map oidArm) ++ implMid2
  match kindBlockGo ts ts "" with
  | .error acc => .error (pre ++ acc)
  | .ok arms => .ok (pre ++ arms ++ implMid3 ++ String.join (ts.map nameArm) ++ implTail)

/-! ## `build`: the whole run, with the destination file modelled -/

/-- Result of one generator run: the destination file's content after the
run (`none` would mean the file is absent) and whether the run aborted. -/
structure RunResult where
  fileState : Option String
  outcome : Except String Unit
deriving DecidableEq

/-- `build` (lines 22–32): `File::create` truncates the destination file
to empty before either snapshot is parsed — so the model's `fileState`
never depends on `prior`, the file's content before the run — then the
four blocks are written through the `BufWriter`.  A parse failure leaves
the truncated (empty) file; a panic inside `make_impl` leaves the header,
enum and display blocks plus `make_impl`'s partial output, because the
`BufWriter` flushes on drop during unwinding. -/
def build (pgType pgRange : String) (_prior : Option String) : RunResult :=
  match parseRanges pgRange with
  | .error e => { fileState := some "", outcome := .error e }
  | .ok ranges =>
    match parseTypes ranges pgType with
    | .error e => { fileState := some "", outcome := .error e }
    | .ok ts =>
      let pre := makeHeader ++ makeEnum ts ++ makeDisplayImpl
      match makeImpl ts with
      | .error part => { fileState := some (pre ++ part), outcome := .error "panicked in make_impl" }
      | .ok implText => { fileState := some (pre ++ implText), outcome := .ok () }

/-! ## Semantics of the generated code

`make_impl` and `make_display_impl` emit Rust text; the following
definitions interpret the emitted `match` statements so that properties
of the generated accessors can be stated.  A value of the generated
`enum Type` is either one of the generated unit cases — identified by its
variant label — or `Other(u)`, where the wrapped `u` answers `oid()`,
`schema()` and `name()` itself. -/

inductive GenType where
  | variant (v : String)
  | other (oid : Nat) (schema : String) (name : String)
deriving DecidableEq

/-- The generated `Type::from_oid`: the match arms are
`oid => Some(Type::Variant)` in catalog (oid) order, with a final
`_ => None`. -/
def genFromOid (ts : List (Nat × TypeRec)) (oid : Nat) : Option GenType :=
  match ts.find? (fun p => p.1 == oid) with
  | some p => some (.variant p.2.variant)
  | none => none

/-- The generated `Type::oid`: arms `Type::Variant => oid` in catalog
order, `Type::Other(ref u) => u.oid()`.  `none` means no arm matches
(impossible for a value of the generated enum when variant labels are
distinct). -/
def genOid (ts : List (Nat × TypeRec)) : GenType → Option Nat
  | .variant v => (ts.find? (fun p => p.2.variant == v)).map (fun p => p.1)
  | .other o _ _ => some o

/-- The generated `Type::name`: arms `Type::Variant => "name"`,
`Type::Other(ref u) => u.name()`. -/
def genName (ts : List (Nat × TypeRec)) : GenType → Option String
  | .variant v => (ts.find? (fun p => p.2.variant == v)).map (fun p => p.2.name)
  | .other _ _ n => some n

/-- The generated `Type::schema`: `Other` delegates, every generated case
falls through to the constant `"pg_catalog"`. -/
def genSchema : GenType → String
  | .variant _ => "pg_catalog"
  | .other _ s _ => s

/-- Semantics of the `fmt::Display` implementation emitted by
`make_display_impl`: schemas `"public"` and `"pg_catalog"` print nothing
before the bare name, any other schema prints `schema.` first. -/
def displayGen (schema name : String) : String :=
  (if schema = "public" ∨ schema = "pg_catalog" then "" else schema ++ ".") ++ name

/-! ## Concrete snapshot inputs used by the witnesses and counterexamples -/

/-- A `pg_range.h` data row in the snapshot's format:
`rngtypid` (3904, field 2) and `rngsubtype` (23, field 3). -/
def rangeRowInt4 : String :=
  "DATA(insert ( 3904 23 3904 1978 int4range_canonical int4range_subdiff))"

/-- A `pg_type.h` data row for `int4range` (oid 3904, kind `R`). -/
def typeRowInt4Range : String :=
  "DATA(insert OID = 3904 ( int4range PGNSP PGUID 22 f r R f t \\054 0 0 3905 range_in range_out range_recv range_send - - - d x f 0 -1 0 0 _null_ _null_ _null_ ));"

/-- A `pg_type.h` data row for `bool` (oid 16, kind `B`, no element). -/
def typeRowBool : String :=
  "DATA(insert OID = 16 ( bool PGNSP PGUID 1 t b B t t \\054 0 0 1000 boolin boolout boolrecv boolsend - - - c p f 0 -1 0 0 _null_ _null_ _null_ ));"

/-- A second row that reuses oid 16 with a different name. -/
def typeRowFake : String :=
  "DATA(insert OID = 16 ( fake PGNSP PGUID 1 t b B t t \\054 0 0 1000 fakein fakeout fakerecv fakesend - - - c p f 0 -1 0 0 _null_ _null_ _null_ ));"

/-- A `pg_type.h` data row for the array type `_int4`
(oid 1007, kind `A`, static element field 23 at position 16). -/
def typeRowInt4Array : String :=
  "DATA(insert OID = 1007 ( _int4 PGNSP PGUID -1 f b A f t \\054 0 23 0 array_in array_out array_recv array_send - - - i x f 0 -1 0 0 _null_ _null_ _null_ ));"

/-- A `pg_type.h` data row for `int4` (oid 23, kind `N`). -/
def typeRowInt4 : String :=
  "DATA(insert OID = 23 ( int4 PGNSP PGUID 4 t b N t t \\054 0 0 1007 int4in int4out int4recv int4send - - - i p f 0 -1 0 0 _null_ _null_ _null_ ));"

/-- The record `parse_types` builds for `typeRowBool`. -/
def boolRec : TypeRec :=
  { name := "bool", variant := "Bool", kind := "B", element := 0, doc := "BOOL" }

/-- The record `parse_types` builds for `typeRowFake`. -/
def fakeRec : TypeRec :=
  { name := "fake", variant := "Fake", kind := "B", element := 0, doc := "FAKE" }

/-- The record `parse_types` builds for `typeRowInt4`. -/
def int4Rec : TypeRec :=
  { name := "int4", variant := "Int4", kind := "N", element := 0, doc := "INT4" }

/-- The record `parse_types` builds for `typeRowInt4Range` when the range
map holds `(3904, 23)`. -/
def rangeRec : TypeRec :=
  { name := "int4range", variant := "Int4Range", kind := "R", element := 23,
    doc := "INT4RANGE" }

/-- The record `parse_types` builds for `typeRowInt4Array`. -/
def int4ArrayRec : TypeRec :=
  { name := "_int4", variant := "Int4Array", kind := "A", element := 23, doc := "INT4[]" }

/-- A small concrete catalog (sorted by oid, as `parse_types` produces). -/
def twoTypeCatalog : List (Nat × TypeRec) :=
  [(16, boolRec), (23, int4Rec)]

/-- A small concrete catalog containing an array type and its element. -/
def arrayCatalog : List (Nat × TypeRec) :=
  [(23, int4Rec), (1007, int4ArrayRec)]

/-! ## Helper lemmas -/

theorem btreeGet_insert_self {α : Type} (m : List (Nat × α)) (k : Nat) (v : α) :
    btreeGet k (btreeInsert k v m) = some v := by
  induction m with
  | nil => simp [btreeInsert, btreeGet]
  | cons h tl ih =>
    obtain ⟨k', v'⟩ := h
    unfold btreeInsert
    by_cases h1 : k < k'
    · simp [h1, btreeGet]
    · by_cases h2 : k = k'
      · simp [h1, h2, btreeGet]
      · simp [h1, h2, btreeGet, ih]

theorem find?_eq_of_mem_unique {α : Type} (l : List α) (p : α → Bool) (a : α)
    (ha : a ∈ l) (hp : p a = true) (uniq : ∀ b ∈ l, p b = true → b = a) :
    l.find? p = some a := by
  induction l with
  | nil => cases ha
  | cons h tl ih =>
    by_cases hh : p h = true
    · have : h = a := uniq h (List.mem_cons_self h tl) hh
      rw [List.find?_cons_of_pos _ hh, this]
    · have ha' : a ∈ tl := by
        rcases List.mem_cons.mp ha with rfl | h'
        · exact absurd hp hh
        · exact h'
      rw [List.find?_cons_of_neg _ (by simpa using hh)]
      exact ih ha' (fun b hb => uniq b (List.mem_cons_of_mem _ hb))

/-- Inversion of a successful `parseTypeRow`: the produced record's
fields come from the row at the source's fixed offsets. -/
theorem parseTypeRow_inv (ranges : List (Nat × Nat)) (line : String)
    (next : Option String) (oid : Nat) (t : TypeRec)
    (h : parseTypeRow ranges line next = some (some (oid, t))) :
    startsWithData line = true
    ∧ (∃ oidS, (fields line)[3]? = some oidS ∧ parseU32 oidS = some oid)
    ∧ (∃ nameL, (fields line)[5]? = some nameL ∧ t.name = String.mk nameL
        ∧ t.variant = deriveVariant (String.mk nameL) ∧ t.doc = mkDoc nameL next)
    ∧ (∃ kindL, (fields line)[11]? = some kindL ∧ t.kind = String.mk kindL)
    ∧ resolveElement ranges oid line = some t.element := by
  unfold parseTypeRow at h
  repeat' split at h
  all_goals simp_all
  obtain ⟨-, rfl⟩ := h
  simp

/-- The kind expression for one record is emitted successfully iff, for
array and range kinds, the element oid has an entry in the catalog. -/
theorem kindConst_isSome (ts : List (Nat × TypeRec)) (t : TypeRec) :
    (kindConst ts t).isSome = true
      ↔ (t.kind = "A" ∨ t.kind = "R" → (btreeGet t.element ts).isSome = true) := by
  unfold kindConst
  split_ifs with h1 h2 h3 <;>
    cases hg : btreeGet t.element ts <;> simp_all

/-- The kind-arm loop succeeds iff every record's kind expression can be
emitted. -/
theorem kindBlockGo_ok_iff (ts l : List (Nat × TypeRec)) (acc : String) :
    isOk (kindBlockGo ts l acc) = true ↔ ∀ p ∈ l, (kindConst ts p.2).isSome = true := by
  induction l generalizing acc with
  | nil => simp [kindBlockGo, isOk]
  | cons hd tl ih =>
    cases hk : kindConst ts hd.2 with
    | none => simp [kindBlockGo, hk, isOk]
    | some k => simp [kindBlockGo, hk, ih]

/-! ## Claim theorems -/

/-- C1: the claim reads "if any parse or resolution step fails, the run
aborts without leaving a partially written output artifact: no output is
written before the failure, so on every failing run the destination
file's content is unchanged/absent."  The code contradicts this: `build`
calls `File::create` — truncating the destination — before either
snapshot is parsed, and on the dangling-element panic inside `make_impl`
the header, enum and display blocks plus part of the impl block have
already been buffered and are flushed while the panic unwinds.  At the
concrete failing input below (a range row whose element oid `23` has no
type-catalog row) the run aborts with a nonempty partial artifact in the
destination file, and at a second input with a malformed numeric range
field the run aborts with the destination truncated to empty — in both
cases the prior content `"previous artifact"` is destroyed. -/
theorem c1_failing_run_leaves_partial_file :
    (isOk (build typeRowInt4Range rangeRowInt4 (some "previous artifact")).outcome = false
      ∧ (build typeRowInt4Range rangeRowInt4 (some "previous artifact")).fileState
          ≠ some "previous artifact"
      ∧ (build typeRowInt4Range rangeRowInt4 (some "previous artifact")).fileState ≠ none
      ∧ (build typeRowInt4Range rangeRowInt4 (some "previous artifact")).fileState ≠ some "")
    ∧ (isOk (build typeRowInt4Range "DATA(insert ( bogus 23 ))" (some "previous artifact")).outcome
          = false
      ∧ (build typeRowInt4Range "DATA(insert ( bogus 23 ))" (some "previous artifact")).fileState
          = some "") := by
  decide

/-- C2 (counterexample): the claim says the Range Table Parser reads the
row's own oid from field position 3 and the element oid from position 4.
On the concrete row `rangeRowInt4` field 3 is `23` and field 4 is `3904`,
so the claim predicts the pair `(23, 3904)`; the parser actually inserts
`(3904, 23)` (fields 2 and 3), and the resulting map has no key 23. -/
theorem c2_field_positions_counterexample :
    parseRanges rangeRowInt4 = .ok [(3904, 23)]
    ∧ (fields rangeRowInt4)[3]? = some "23".toList
    ∧ (fields rangeRowInt4)[4]? = some "3904".toList
    ∧ btreeGet 23 [((3904 : Nat), (23 : Nat))] = none := by
  decide

/-- C2 (amended): for every data row of the range catalog snapshot, the
Range Table Parser takes the row's own oid from the whitespace-delimited
field at position 2 (0-indexed) and the element oid from the field at
position 3, and inserts the pair `(oid, element)` into the map. -/
theorem c2_row_fields_inserted (line : String) (rest : List String)
    (acc : List (Nat × Nat)) (oS eS : List Char) (o e : Nat)
    (hD : startsWithData line = true)
    (h2 : (fields line)[2]? = some oS) (ho : parseU32 oS = some o)
    (h3 : (fields line)[3]? = some eS) (he : parseU32 eS = some e) :
    parseRangesGo (line :: rest) acc = parseRangesGo rest (btreeInsert o e acc) := by
  simp [parseRangesGo, parseRangeRow, hD, h2, ho, h3, he]

/-- Witness for C2's amended theorem at the concrete row `rangeRowInt4`. -/
theorem c2_row_fields_inserted_witness :
    parseRangesGo [rangeRowInt4] [] = parseRangesGo [] (btreeInsert 3904 23 []) :=
  c2_row_fields_inserted rangeRowInt4 [] [] "3904".toList "23".toList 3904 23
    (by decide) (by decide) (by decide) (by decide) (by decide)

/-- C3 (counterexample): the claim says two eligible rows with the same
oid are a fatal error and never silently replace one another.  On the
concrete snapshot below — two eligible rows both with oid 16 — the run
does not abort, and the catalog holds only the later row's record. -/
theorem c3_duplicate_oid_counterexample :
    isOk (parseTypes [] (typeRowBool ++ "\n" ++ typeRowFake)) = true
    ∧ parseTypes [] (typeRowBool ++ "\n" ++ typeRowFake) = .ok [(16, fakeRec)]
    ∧ isOk (build (typeRowBool ++ "\n" ++ typeRowFake) "" none).outcome = true := by
  decide

/-- C3 (amended): when two eligible rows produce the same oid, the run
does not abort; `BTreeMap::insert` makes the later row's record silently
replace the earlier one in the catalog.  (Duplicate derived variant
labels are likewise never checked by the generator.) -/
theorem c3_duplicate_oid_replaces (ranges : List (Nat × Nat)) (l1 l2 : String)
    (rest : List String) (acc : List (Nat × TypeRec)) (oid : Nat) (t1 t2 : TypeRec)
    (h1 : parseTypeRow ranges l1 (some l2) = some (some (oid, t1)))
    (h2 : parseTypeRow ranges l2 rest.head? = some (some (oid, t2))) :
    parseTypesGo ranges (l1 :: l2 :: rest) acc
      = parseTypesGo ranges rest (btreeInsert oid t2 (btreeInsert oid t1 acc))
    ∧ btreeGet oid (btreeInsert oid t2 (btreeInsert oid t1 acc)) = some t2 :=
  ⟨by simp [parseTypesGo, h1, h2], btreeGet_insert_self _ _ _⟩

/-- Witness for C3's amended theorem at the concrete duplicate rows. -/
theorem c3_duplicate_oid_replaces_witness :
    parseTypesGo [] [typeRowBool, typeRowFake] []
      = parseTypesGo [] [] (btreeInsert 16 fakeRec (btreeInsert 16 boolRec []))
    ∧ btreeGet 16 (btreeInsert 16 fakeRec (btreeInsert 16 boolRec [])) = some fakeRec :=
  c3_duplicate_oid_replaces [] typeRowBool typeRowFake [] [] 16 boolRec fakeRec
    (by decide) (by decide)

/-- C9: the pipeline modelled by `build` is a pure function of the two
snapshot texts — the `BTreeMap` fixes iteration order, nothing consults
the environment, and `File::create` truncates the destination so the
output does not depend on the file's prior content.  Two runs on
identical input snapshots therefore produce byte-identical output text
and the same outcome, whatever the destination held before. -/
theorem c9_deterministic_emission (pt1 pr1 pt2 pr2 : String) (f1 f2 : Option String)
    (hpt : pt1 = pt2) (hpr : pr1 = pr2) :
    (build pt1 pr1 f1).fileState = (build pt2 pr2 f2).fileState
    ∧ (build pt1 pr1 f1).outcome = (build pt2 pr2 f2).outcome := by
  subst hpt; subst hpr; exact ⟨rfl, rfl⟩

/-- Witness for C9 at concrete snapshots and two different prior file
contents. -/
theorem c9_deterministic_emission_witness :
    (build typeRowBool rangeRowInt4 none).fileState
      = (build typeRowBool rangeRowInt4 (some "stale")).fileState
    ∧ (build typeRowBool rangeRowInt4 none).outcome
      = (build typeRowBool rangeRowInt4 (some "stale")).outcome :=
  c9_deterministic_emission typeRowBool rangeRowInt4 typeRowBool rangeRowInt4
    none (some "stale") rfl rfl

/-- C4: for every retained type-catalog row, the element oid is resolved
as the claim states: if the row's oid is a key of the range map the map's
value is used — the row's own static element field is not consulted —
and otherwise the static element field (position 16) supplies the value.
(The record stores the element as a plain `u32`; a static field of zero
yields element `0`, the code's encoding of "no element": `make_impl`
reads the field only for array/range kinds.) -/
theorem c4_element_resolution (ranges : List (Nat × Nat)) (line : String)
    (next : Option String) (oid : Nat) (t : TypeRec)
    (h : parseTypeRow ranges line next = some (some (oid, t))) :
    resolveElement ranges oid line = some t.element
    ∧ (∀ e, btreeGet oid ranges = some e → t.element = e)
    ∧ (btreeGet oid ranges = none →
        ∃ f, (fields line)[16]? = some f ∧ parseU32 f = some t.element) := by
  obtain ⟨-, -, -, -, hres⟩ := parseTypeRow_inv ranges line next oid t h
  refine ⟨hres, ?_, ?_⟩
  · intro e he
    unfold resolveElement at hres
    rw [he] at hres
    exact (Option.some.inj hres).symm
  · intro hnone
    unfold resolveElement at hres
    rw [hnone] at hres
    revert hres
    cases hf : (fields line).get? 16 with
    | none => intro hres; cases hres
    | some f =>
      intro hres
      exact ⟨f, by simpa using hf, hres⟩

/-- Witness for C4 at two concrete rows: `int4range` (oid 3904, in the
range map, element taken from the map) and `_int4` (oid 1007, not in the
range map, element taken from static field 16). -/
theorem c4_element_resolution_witness :
    (resolveElement [(3904, 23)] 3904 typeRowInt4Range = some rangeRec.element
      ∧ (∀ e, btreeGet 3904 [(3904, 23)] = some e → rangeRec.element = e)
      ∧ (btreeGet 3904 [(3904, 23)] = none →
          ∃ f, (fields typeRowInt4Range)[16]? = some f ∧ parseU32 f = some rangeRec.element))
    ∧ (resolveElement [] 1007 typeRowInt4Array = some int4ArrayRec.element
      ∧ (∀ e, btreeGet 1007 ([] : List (Nat × Nat)) = some e → int4ArrayRec.element = e)
      ∧ (btreeGet 1007 ([] : List (Nat × Nat)) = none →
          ∃ f, (fields typeRowInt4Array)[16]? = some f ∧ parseU32 f = some int4ArrayRec.element)) :=
  ⟨c4_element_resolution [(3904, 23)] typeRowInt4Range none 3904 rangeRec (by decide),
   c4_element_resolution [] typeRowInt4Array none 1007 int4ArrayRec (by decide)⟩

/-- C6: `make_impl` succeeds exactly when every record of kind `A`
(array) or `R` (range) has an element oid that is a key of the same
catalog.  In particular a generated artifact exists only for catalogs
with no dangling cross-references, and a dangling reference makes the
emission step abort (`types[&type_.element]` panics) rather than being
silently dropped. -/
theorem c6_no_dangling_elements (ts : List (Nat × TypeRec)) :
    isOk (makeImpl ts) = true
      ↔ ∀ p ∈ ts, (p.2.kind = "A" ∨ p.2.kind = "R") →
          (btreeGet p.2.element ts).isSome = true := by
  have hmk : isOk (makeImpl ts) = isOk (kindBlockGo ts ts "") := by
    unfold makeImpl
    cases hk : kindBlockGo ts ts "" <;> simp [isOk]
  rw [hmk, kindBlockGo_ok_iff]
  constructor
  · intro hall p hp
    exact (kindConst_isSome ts p.2).mp (hall p hp)
  · intro hall p hp
    exact (kindConst_isSome ts p.2).mpr (hall p hp)

/-- C7: for every oid present in the catalog, the generated `from_oid`
lookup returns `Some` of the corresponding variant, and the generated
`oid` accessor maps that variant back to the same oid.  The two
uniqueness hypotheses hold of every catalog the generator emits code
for: oids are `BTreeMap` keys, and duplicate variant labels would make
the generated enum ill-formed. -/
theorem c7_from_oid_round_trip (ts : List (Nat × TypeRec)) (oid : Nat) (t : TypeRec)
    (hmem : (oid, t) ∈ ts)
    (hoid : ∀ p ∈ ts, ∀ q ∈ ts, p.1 = q.1 → p = q)
    (hvar : ∀ p ∈ ts, ∀ q ∈ ts, p.2.variant = q.2.variant → p = q) :
    genFromOid ts oid = some (.variant t.variant)
    ∧ genOid ts (.variant t.variant) = some oid := by
  have h1 : ts.find? (fun p => p.1 == oid) = some (oid, t) :=
    find?_eq_of_mem_unique ts _ (oid, t) hmem (by simp)
      (fun b hb hpb => hoid b hb (oid, t) hmem (by simpa using hpb))
  have h2 : ts.find? (fun p => p.2.variant == t.variant) = some (oid, t) :=
    find?_eq_of_mem_unique ts _ (oid, t) hmem (by simp)
      (fun b hb hpb => hvar b hb (oid, t) hmem (by simpa using hpb))
  constructor
  · unfold genFromOid
    rw [h1]
  · simp [genOid, h2]

/-- Witness for C7 at a concrete two-entry catalog. -/
theorem c7_from_oid_round_trip_witness :
    genFromOid twoTypeCatalog 23 = some (.variant int4Rec.variant)
    ∧ genOid twoTypeCatalog (.variant int4Rec.variant) = some 23 :=
  c7_from_oid_round_trip twoTypeCatalog 23 int4Rec (by decide) (by decide) (by decide)

/-- C8: the display logic emitted by `make_display_impl` is fixed and
catalog-independent: a schema equal to one of the two well-known
built-in names (`"public"`, `"pg_catalog"`) renders as the bare name,
any other schema renders as `schema.name`, and in particular a type
with schema `"pg_catalog"` renders as its bare name. -/
theorem c8_display_rule (s n : String) :
    (s = "public" ∨ s = "pg_catalog" → displayGen s n = n)
    ∧ (¬(s = "public" ∨ s = "pg_catalog") → displayGen s n = s ++ "." ++ n)
    ∧ displayGen "pg_catalog" n = n := by
  refine ⟨?_, ?_, ?_⟩
  · intro hs
    unfold displayGen
    rw [if_pos hs]
    cases n with
    | mk data => rfl
  · intro hs
    unfold displayGen
    rw [if_neg hs]
  · unfold displayGen
    rw [if_pos (Or.inr rfl)]
    cases n with
    | mk data => rfl

/-- Witness for C8 at the spec's own examples. -/
theorem c8_display_rule_witness :
    displayGen "pg_catalog" "int4" = "int4"
    ∧ displayGen "myschema" "typename" = "myschema" ++ "." ++ "typename" :=
  ⟨(c8_display_rule "pg_catalog" "int4").1 (Or.inr rfl),
   (c8_display_rule "myschema" "typename").2.1 (by decide)⟩

/-- C10: the generated `name()` accessor returns the catalog's original
name string verbatim: `parse_types` stores field 5 of the row unchanged
(leading underscore of array names included, untouched by the variant
and doc derivations), and `make_impl` emits `Type::Variant => "name"`
arms from that stored string, while the `Other` fallback delegates to
the wrapped value's own name. -/
theorem c10_name_verbatim (ranges : List (Nat × Nat)) (line : String)
    (next : Option String) (oid : Nat) (t : TypeRec) (ts : List (Nat × TypeRec))
    (h : parseTypeRow ranges line next = some (some (oid, t)))
    (hmem : (oid, t) ∈ ts)
    (hvar : ∀ p ∈ ts, ∀ q ∈ ts, p.2.variant = q.2.variant → p = q) :
    (∃ nameL, (fields line)[5]? = some nameL ∧ t.name = String.mk nameL)
    ∧ genName ts (.variant t.variant) = some t.name
    ∧ (∀ o s u, genName ts (.other o s u) = some u) := by
  obtain ⟨-, -, ⟨nameL, hf, hn, -, -⟩, -, -⟩ := parseTypeRow_inv ranges line next oid t h
  have h2 : ts.find? (fun p => p.2.variant == t.variant) = some (oid, t) :=
    find?_eq_of_mem_unique ts _ (oid, t) hmem (by simp)
      (fun b hb hpb => hvar b hb (oid, t) hmem (by simpa using hpb))
  refine ⟨⟨nameL, hf, hn⟩, ?_, fun o s u => rfl⟩
  simp [genName, h2]

/-- Witness for C10 at the concrete `_int4` row: the stored and reported
name keeps the leading underscore. -/
theorem c10_name_verbatim_witness :
    (∃ nameL, (fields typeRowInt4Array)[5]? = some nameL
      ∧ int4ArrayRec.name = String.mk nameL)
    ∧ genName arrayCatalog (.variant int4ArrayRec.variant) = some int4ArrayRec.name
    ∧ (∀ o s u, genName arrayCatalog (.other o s u) = some u) :=
  c10_name_verbatim [] typeRowInt4Array none 1007 int4ArrayRec arrayCatalog
    (by decide) (by decide) (by decide)
